import Mathlib

/-!
Verification of the demand/supply extraction-alignment-comparison engine
of the playwright test repository.

The definitions below are a shallow embedding of the pure algorithmic
parts of `tests/demand-supply.spec.ts` (text-to-number parsing, the
demand-row cell filter, multi-row stitching with dynamic overlap
detection, label-based alignment and comparison, and the lock-status
classification policy). DOM access is abstracted away: the embedded
functions take the already-scraped cell texts, header labels and values
as inputs, exactly as they appear at the corresponding source lines.
-/

namespace DemandSupply

/-! ## Text / number parsing

`parseInt(valueText.replace(/,/g, '').trim())` at demand-supply.spec.ts:94
and `parseInt(valueText.replace(/,/g, ''))` at demand-supply.spec.ts:271.
We embed JavaScript `parseInt` with an unspecified radix: skip leading
whitespace, optional sign, an optional `0x`/`0X` hexadecimal prefix,
then the longest digit prefix; `NaN` (here `none`) when no digits follow.
-/

/-- Trim leading and trailing whitespace from a character list
(JS `parseInt` skips leading whitespace; `.trim()` removes both ends). -/
def trimChars (cs : List Char) : List Char :=
  ((cs.dropWhile Char.isWhitespace).reverse.dropWhile Char.isWhitespace).reverse

/-- Value of a list of decimal digits, most significant first. -/
def digitsVal (cs : List Char) : Nat :=
  cs.foldl (fun a c => 10 * a + (c.toNat - Char.toNat '0')) 0

/-- Value of a single hexadecimal digit, `none` for any other character. -/
def hexDigitVal (c : Char) : Option Nat :=
  if '0' ≤ c ∧ c ≤ '9' then some (c.toNat - Char.toNat '0')
  else if 'a' ≤ c ∧ c ≤ 'f' then some (c.toNat - Char.toNat 'a' + 10)
  else if 'A' ≤ c ∧ c ≤ 'F' then some (c.toNat - Char.toNat 'A' + 10)
  else none

/-- Is the character a hexadecimal digit? -/
def isHexDigitChar (c : Char) : Bool :=
  (hexDigitVal c).isSome

/-- Value of a list of hexadecimal digits, most significant first. -/
def hexVal (cs : List Char) : Nat :=
  cs.foldl (fun a c => 16 * a + (hexDigitVal c).getD 0) 0

/-- Sign-free part of JavaScript `parseInt`: either a `0x`/`0X`
hexadecimal literal or the longest decimal-digit prefix; `none` models
`NaN`. -/
def jsParseBody (sign : Int) : List Char → Option Int
  | '0' :: c :: rest =>
    if c = 'x' ∨ c = 'X' then
      let ds := rest.takeWhile isHexDigitChar
      if ds = [] then none else some (sign * (hexVal ds : Int))
    else
      some (sign * (digitsVal (('0' :: c :: rest).takeWhile Char.isDigit) : Int))
  | body =>
    let ds := body.takeWhile Char.isDigit
    if ds = [] then none else some (sign * (digitsVal ds : Int))

/-- Core of JavaScript `parseInt` (radix unspecified) on a character list
that has already had surrounding whitespace removed: an optional sign,
then the body. -/
def jsParseIntChars (cs : List Char) : Option Int :=
  match cs with
  | '-' :: rest => jsParseBody (-1) rest
  | '+' :: rest => jsParseBody 1 rest
  | _ => jsParseBody 1 cs

/-- JavaScript `parseInt` on a string (demand-supply.spec.ts:94, :271). -/
def jsParseInt (s : String) : Option Int :=
  jsParseIntChars (trimChars s.toList)

/-- JavaScript `valueText.replace(/,/g, '')`: remove every comma. -/
def stripCommas (s : String) : String :=
  String.mk (s.toList.filter (fun c => c ≠ ','))

/-- The spec's `parseCount`: strip grouping separators, trim whitespace,
parse as integer (demand-supply.spec.ts:94,
`parseInt(valueText.replace(/,/g, '').trim())`); `none` models the
`NotANumber` outcome. The source's explicit `.trim()` is subsumed by
`parseInt`'s own surrounding-whitespace handling, which `jsParseInt`
embeds. -/
def parseCount (text : String) : Option Int :=
  jsParseInt (stripCommas text)

/-- Does `needle` occur as a contiguous sublist of `hay`? -/
def listContainsSub (needle : List Char) : List Char → Bool
  | [] => needle.isEmpty
  | c :: rest => needle.isPrefixOf (c :: rest) || listContainsSub needle rest

/-- JavaScript `hay.includes(sub)` on strings. -/
def textIncludes (hay sub : String) : Bool :=
  listContainsSub sub.toList hay.toList

/-! ## Demand-row cell extraction (Pass 1)

demand-supply.spec.ts:256-275: for each `<td>` cell, skip the label cell,
prefer a non-empty `<input>` value over the rendered text, parse, and
keep the number iff `!isNaN(num) && num >= 0`.
-/

/-- One scraped table cell: its trimmed rendered text, and the value of
a contained `<input>` element when present. -/
structure Cell where
  text : String
  inputValue : Option String
  deriving Repr, DecidableEq

/-- `input && input.value ? input.value : cellText`
(demand-supply.spec.ts:262-269): a present but empty input value is
falsy, so the rendered text is used instead. -/
def cellValueText (c : Cell) : String :=
  match c.inputValue with
  | some v => if v = "" then c.text else v
  | none => c.text

/-- The demand-side cell filter at demand-supply.spec.ts:271-274: parse
after removing commas and keep iff the result is a number `>= 0`; the
label cell (text containing "Gross sales") is skipped. -/
def demandCellParse (c : Cell) : Option Int :=
  if textIncludes c.text "Gross sales" then none
  else
    match jsParseInt (stripCommas (cellValueText c)) with
    | none => none
    | some n => if 0 ≤ n then some n else none

/-- Values surviving the demand-side cell loop for one row, in cell
order (demand-supply.spec.ts:253-275). -/
def extractDemandRowValues (cells : List Cell) : List Int :=
  cells.filterMap demandCellParse

/-- The Pass-1 gross-sales cell filter as documented in the architecture
note (src/unnamed/part_000 lines 62-67), which the current test code no
longer applies: keep iff `0 ≤ n < 10000000` and
`(n < 1900 ∨ n > 2100 ∨ n < 1000)`. -/
def docKeep (n : Int) : Bool :=
  decide (0 ≤ n) && decide (n < 10000000) &&
    (decide (n < 1900) || decide (n > 2100) || decide (n < 1000))

/-- Documented Pass-1 cell handling (src/unnamed/part_000 lines 53-68). -/
def docCellParse (c : Cell) : Option Int :=
  if textIncludes c.text "Gross sales" then none
  else
    match jsParseInt (stripCommas (cellValueText c)) with
    | none => none
    | some n => if docKeep n then some n else none

/-- Values surviving the documented Pass-1 cell loop for one row. -/
def extractDocRowValues (cells : List Cell) : List Int :=
  cells.filterMap docCellParse

/-! ## Data model -/

/-- A month label such as "JAN". -/
abbrev Label := String

/-- The `DemandData` interface (demand-supply.spec.ts:16-19). -/
structure DemandData where
  labels : List Label
  values : List Int
  deriving Repr, DecidableEq

/-- The `SupplyData` interface (demand-supply.spec.ts:21-24). -/
structure SupplyData where
  values : List Int
  headers : List Label
  deriving Repr, DecidableEq

/-- One gross-sales row as pushed by Pass 1
(demand-supply.spec.ts:217, :279). -/
structure RowExtract where
  year : Int
  values : List Int
  headers : List Label
  deriving Repr, DecidableEq

/-- Row construction at demand-supply.spec.ts:277-280: a row is kept
only when it has values and the table produced a header row, and its
labels are `headerLabels.slice(0, values.length)`. -/
def mkRowExtract (year : Int) (headerLabels : List Label)
    (values : List Int) : Option RowExtract :=
  if values.length > 0 ∧ headerLabels.length > 0 then
    some { year := year, values := values,
           headers := headerLabels.take values.length }
  else none

/-- Supply-side result construction at demand-supply.spec.ts:100:
`{ values, headers: headerLabels.slice(0, values.length) }`. -/
def mkSupplyData (headerLabels : List Label) (values : List Int) :
    SupplyData :=
  { values := values, headers := headerLabels.take values.length }

/-! ## Multi-row stitching (Pass 2)

demand-supply.spec.ts:287-318: sort rows by year, seed with the first
row, and for each later row scan `k = 1 .. min(3, |rowLabels|,
|allLabels|)`, setting `overlap = k` on every match (so the largest
matching `k` wins), then append labels and values from index `overlap`.
-/

/-- Does the block of the last `k` accumulated labels equal the block of
the first `k` labels of the next row (demand-supply.spec.ts:305-307)?
Within the scan range both slices have length exactly `k`, so the
source's element-wise `every` is list equality. -/
def overlapMatches (allLabels rowLabels : List Label) (k : Nat) : Bool :=
  allLabels.drop (allLabels.length - k) == rowLabels.take k

/-- The overlap scan at demand-supply.spec.ts:303-311: fold over
`k = 1 .. min(3, |rowLabels|, |allLabels|)`, overwriting `overlap` on
every match. -/
def computeOverlap (allLabels rowLabels : List Label) : Nat :=
  (List.range' 1 (min 3 (min rowLabels.length allLabels.length))).foldl
    (fun overlap k => if overlapMatches allLabels rowLabels k then k else overlap) 0

/-- One iteration of the stitch loop for a non-first row
(demand-supply.spec.ts:301-315). -/
def stitchStep (acc : DemandData) (row : RowExtract) : DemandData :=
  let overlap := computeOverlap acc.labels row.headers
  { labels := acc.labels ++ row.headers.drop overlap,
    values := acc.values ++ row.values.drop overlap }

/-- The stitch loop (demand-supply.spec.ts:291-318): the first row is
taken verbatim, later rows are appended with their overlap removed. -/
def stitch (rows : List RowExtract) : DemandData :=
  match rows with
  | [] => { labels := [], values := [] }
  | r :: rest => rest.foldl stitchStep { labels := r.headers, values := r.values }

/-- The chronological sort before stitching
(demand-supply.spec.ts:288, `(a, b) => a.year - b.year`). -/
def sortRows (rows : List RowExtract) : List RowExtract :=
  rows.mergeSort (fun a b => a.year ≤ b.year)

/-- Data-processing half of `extractDemandData`
(demand-supply.spec.ts:287-318): sort chronologically, then stitch. -/
def extractDemandSeries (rows : List RowExtract) : DemandData :=
  stitch (sortRows rows)

/-- The overlap removed at each boundary while stitching `rest` onto the
accumulated series `acc`, in boundary order. -/
def overlapsFrom (acc : DemandData) : List RowExtract → List Nat
  | [] => []
  | row :: rest =>
    computeOverlap acc.labels row.headers :: overlapsFrom (stitchStep acc row) rest

/-- The overlaps removed at the boundaries of a stitch run. -/
def stitchOverlaps (rows : List RowExtract) : List Nat :=
  match rows with
  | [] => []
  | r :: rest => overlapsFrom { labels := r.headers, values := r.values } rest

/-! ## Alignment and comparison -/

/-- One mismatch entry (demand-supply.spec.ts:27, :344-349). -/
structure MismatchRecord where
  index : Nat
  month : String
  supply : Int
  demand : Int
  deriving Repr, DecidableEq

/-- The `AlignmentResult` interface (demand-supply.spec.ts:26-29). -/
structure AlignmentResult where
  mismatches : List MismatchRecord
  comparedCount : Nat
  deriving Repr, DecidableEq

/-- JavaScript `Array.prototype.indexOf`: index of the first occurrence,
`none` models `-1` (demand-supply.spec.ts:331). -/
def jsIndexOf (target : Label) : List Label → Option Nat
  | [] => none
  | l :: ls => if l = target then some 0 else (jsIndexOf target ls).map (· + 1)

/-- `labelsSliced[i] || "Month " + i` (demand-supply.spec.ts:346): an
out-of-range access yields `undefined` and an empty label is falsy, so
both fall back to the synthetic name. -/
def monthLabel (labelsSliced : List Label) (i : Nat) : String :=
  if labelsSliced.getD i "" = "" then "Month " ++ toString i
  else labelsSliced.getD i ""

/-- The comparison loop of `alignAndCompare` once the pivot index is
known (demand-supply.spec.ts:336-353). -/
def compareFrom (startIdx : Nat) (supplyValues : List Int)
    (demandLabels : List Label) (demandValues : List Int) : AlignmentResult :=
  let demandSliced := demandValues.drop startIdx
  let labelsSliced := demandLabels.drop startIdx
  let compareLength := min supplyValues.length demandSliced.length
  let mismatches := (List.range compareLength).filterMap fun i =>
    if supplyValues.getD i 0 ≠ demandSliced.getD i 0 then
      some { index := i, month := monthLabel labelsSliced i,
             supply := supplyValues.getD i 0,
             demand := demandSliced.getD i 0 }
    else none
  { mismatches := mismatches, comparedCount := compareLength }

/-- `alignAndCompare` (demand-supply.spec.ts:324-354), with the current
month passed explicitly; the thrown `Error` is modelled as `.error`
carrying the source's message. -/
def alignAndCompare (currentMonth : Label) (supplyValues : List Int)
    (demandLabels : List Label) (demandValues : List Int) :
    Except String AlignmentResult :=
  match jsIndexOf currentMonth demandLabels with
  | none =>
    .error ("Current month " ++ currentMonth ++
      " not found in demand labels: [" ++ String.intercalate ", " demandLabels ++ "]")
  | some startIdx =>
    .ok (compareFrom startIdx supplyValues demandLabels demandValues)

/-! ## Classification policy

demand-supply.spec.ts:419-423: a locked forecast with mismatches fails
the test; every other combination passes. The repository's debugging
guide (PLAYWRIGHT_DEBUGGING_BEST_PRACTICES.md, "Classification Logic")
names the unlocked-with-mismatches outcome separately (logged for
analyst review, not a test failure); that third outcome is `Advisory`.
-/

/-- Three-valued verdict of the classification policy. -/
inductive Verdict where
  | Pass
  | Fail
  | Advisory
  deriving Repr, DecidableEq

/-- The classification at demand-supply.spec.ts:419-423 together with
the documented result table: locked forecasts fail on any mismatch,
unlocked mismatches are advisory only, clean runs pass. -/
def classify (lockSignal : Bool) (mismatches : List MismatchRecord) : Verdict :=
  if lockSignal then
    if mismatches.isEmpty then .Pass else .Fail
  else
    if mismatches.isEmpty then .Pass else .Advisory

/-- Whether the test run fails: exactly the condition of the `expect`
at demand-supply.spec.ts:420-422. -/
def testFails (lockSignal : Bool) (mismatches : List MismatchRecord) : Bool :=
  lockSignal && !mismatches.isEmpty

/-! ## Helper lemmas about the overlap fold -/

/-- A fold that overwrites its accumulator with every element satisfying
`f` ends, on a strictly increasing list, either at the seed with nothing
matching, or at the largest matching element. -/
theorem foldl_select_spec (f : Nat → Bool) (l : List Nat)
    (hl : l.Pairwise (· < ·)) (a : Nat) :
    (l.foldl (fun o k => if f k then k else o) a = a ∧ ∀ k ∈ l, f k = false) ∨
    (l.foldl (fun o k => if f k then k else o) a ∈ l ∧
      f (l.foldl (fun o k => if f k then k else o) a) = true ∧
      ∀ k ∈ l, l.foldl (fun o k => if f k then k else o) a < k → f k = false) := by
  induction l generalizing a with
  | nil => exact Or.inl ⟨rfl, by simp⟩
  | cons x xs ih =>
    have hx : ∀ b ∈ xs, x < b := (List.pairwise_cons.mp hl).1
    have hxs : xs.Pairwise (· < ·) := (List.pairwise_cons.mp hl).2
    simp only [List.foldl_cons]
    cases hfx : f x with
    | false =>
      simp only [hfx, if_false, Bool.false_eq_true]
      rcases ih hxs a with ⟨heq, hall⟩ | ⟨hmem, hfr, hmax⟩
      · refine Or.inl ⟨heq, fun k hk => ?_⟩
        rcases List.mem_cons.mp hk with rfl | hk
        · exact hfx
        · exact hall k hk
      · refine Or.inr ⟨List.mem_cons_of_mem x hmem, hfr, fun k hk hlt => ?_⟩
        rcases List.mem_cons.mp hk with rfl | hk
        · exact hfx
        · exact hmax k hk hlt
    | true =>
      simp only [hfx, if_true]
      rcases ih hxs x with ⟨heq, hall⟩ | ⟨hmem, hfr, hmax⟩
      · rw [heq]
        refine Or.inr ⟨List.mem_cons_self x xs, hfx, fun k hk hlt => ?_⟩
        rcases List.mem_cons.mp hk with rfl | hk
        · exact absurd hlt (lt_irrefl k)
        · exact hall k hk
      · refine Or.inr ⟨List.mem_cons_of_mem x hmem, hfr, fun k hk hlt => ?_⟩
        rcases List.mem_cons.mp hk with rfl | hk
        · exact absurd (hx _ hmem) (not_lt_of_gt hlt)
        · exact hmax k hk hlt

/-- The scan bound `min(3, |rowLabels|, |allLabels|)` of the overlap
loop. -/
def overlapBound (allLabels rowLabels : List Label) : Nat :=
  min 3 (min rowLabels.length allLabels.length)

/-- `computeOverlap` is either `0` with no `k` in scan range matching,
or the largest matching `k` in scan range. -/
theorem computeOverlap_spec (al rl : List Label) :
    (computeOverlap al rl = 0 ∧ ∀ k, 1 ≤ k → k ≤ overlapBound al rl →
        overlapMatches al rl k = false) ∨
    (1 ≤ computeOverlap al rl ∧ computeOverlap al rl ≤ overlapBound al rl ∧
      overlapMatches al rl (computeOverlap al rl) = true ∧
      ∀ k, computeOverlap al rl < k → k ≤ overlapBound al rl →
        overlapMatches al rl k = false) := by
  have hmem : ∀ k : Nat, k ∈ List.range' 1 (overlapBound al rl) ↔
      1 ≤ k ∧ k ≤ overlapBound al rl := by
    intro k
    rw [List.mem_range'_1]
    omega
  rcases foldl_select_spec (overlapMatches al rl)
      (List.range' 1 (overlapBound al rl))
      (List.pairwise_lt_range' 1 (overlapBound al rl)) 0 with
    ⟨heq, hall⟩ | ⟨hin, hf, hmax⟩
  · exact Or.inl ⟨heq, fun k h1 h2 => hall k ((hmem k).mpr ⟨h1, h2⟩)⟩
  · refine Or.inr ⟨((hmem _).mp hin).1, ((hmem _).mp hin).2, hf,
      fun k hlt h2 => hmax k ((hmem k).mpr ⟨?_, h2⟩) hlt⟩
    omega

/-- The computed overlap never exceeds the scan bound. -/
theorem computeOverlap_le (al rl : List Label) :
    computeOverlap al rl ≤ overlapBound al rl := by
  rcases computeOverlap_spec al rl with ⟨h, _⟩ | ⟨_, h, _, _⟩
  · omega
  · exact h

/-! ## Helper lemmas about stitching -/

/-- One stitch step: the overlap is removed from the appended value
count, and the labels-equals-values length invariant is preserved. -/
theorem stitchStep_length (acc : DemandData) (row : RowExtract)
    (hacc : acc.labels.length = acc.values.length)
    (hrow : row.headers.length = row.values.length) :
    (stitchStep acc row).values.length + computeOverlap acc.labels row.headers
        = acc.values.length + row.values.length ∧
    (stitchStep acc row).labels.length = (stitchStep acc row).values.length := by
  have hb := computeOverlap_le acc.labels row.headers
  have hkh : computeOverlap acc.labels row.headers ≤ row.headers.length := by
    unfold overlapBound at hb
    omega
  constructor
  · simp only [stitchStep, List.length_append, List.length_drop]
    omega
  · simp only [stitchStep, List.length_append, List.length_drop]
    omega

/-- Folding the stitch step over any row list: the output value count
plus all removed overlaps equals the input value count, and the length
invariant is preserved. -/
theorem foldl_stitchStep_length (rest : List RowExtract) :
    ∀ acc : DemandData, acc.labels.length = acc.values.length →
    (∀ r ∈ rest, r.headers.length = r.values.length) →
    (rest.foldl stitchStep acc).values.length + (overlapsFrom acc rest).sum
        = acc.values.length + (rest.map (fun r => r.values.length)).sum ∧
    (rest.foldl stitchStep acc).labels.length
        = (rest.foldl stitchStep acc).values.length := by
  induction rest with
  | nil =>
    intro acc hacc _
    constructor
    · simp [overlapsFrom]
    · simpa using hacc
  | cons row rest ih =>
    intro acc hacc hall
    have hrow := hall row (List.mem_cons_self row rest)
    have hstep := stitchStep_length acc row hacc hrow
    have hrec := ih (stitchStep acc row) hstep.2
      (fun r hr => hall r (List.mem_cons_of_mem row hr))
    simp only [List.foldl_cons, overlapsFrom, List.sum_cons, List.map_cons]
    omega

/-! ## Helper lemmas about `jsIndexOf` -/

/-- `jsIndexOf` returns `none` exactly when the target is absent. -/
theorem jsIndexOf_eq_none_iff (t : Label) (ls : List Label) :
    jsIndexOf t ls = none ↔ t ∉ ls := by
  induction ls with
  | nil => simp [jsIndexOf]
  | cons l ls ih =>
    by_cases hl : l = t
    · simp [jsIndexOf, hl]
    · simp only [jsIndexOf, if_neg hl, Option.map_eq_none', ih,
        List.mem_cons]
      constructor
      · intro h hmem
        rcases hmem with rfl | hmem
        · exact hl rfl
        · exact h hmem
      · intro h hmem
        exact h (Or.inr hmem)

/-- What a successful `jsIndexOf` returns: an in-range index whose
element is the target, with no earlier occurrence. -/
theorem jsIndexOf_eq_some (t : Label) (ls : List Label) (n : Nat)
    (h : jsIndexOf t ls = some n) :
    n < ls.length ∧ ls[n]? = some t ∧ ∀ m, m < n → ls[m]? ≠ some t := by
  induction ls generalizing n with
  | nil => simp [jsIndexOf] at h
  | cons l ls ih =>
    by_cases hl : l = t
    · simp only [jsIndexOf, if_pos hl] at h
      injection h with h0
      subst h0
      refine ⟨by simp, by simpa using hl, fun m hm => absurd hm (by omega)⟩
    · simp only [jsIndexOf, if_neg hl, Option.map_eq_some'] at h
      obtain ⟨n', hn', rfl⟩ := h
      obtain ⟨hlen, hget, hmin⟩ := ih n' hn'
      refine ⟨by simpa using hlen, by simpa using hget, fun m hm => ?_⟩
      cases m with
      | zero =>
        simp only [List.getElem?_cons_zero]
        intro hcontra
        exact hl (Option.some.inj hcontra)
      | succ m' =>
        simp only [List.getElem?_cons_succ]
        exact hmin m' (by omega)

/-- An occurrence at index `i` forces `jsIndexOf` to succeed at an index
no later than `i`. -/
theorem jsIndexOf_le_of_mem (t : Label) (ls : List Label) (i : Nat)
    (hi : ls[i]? = some t) :
    ∃ n, jsIndexOf t ls = some n ∧ n ≤ i := by
  induction ls generalizing i with
  | nil => simp at hi
  | cons l ls ih =>
    by_cases hl : l = t
    · exact ⟨0, by simp [jsIndexOf, hl], Nat.zero_le i⟩
    · cases i with
      | zero =>
        simp only [List.getElem?_cons_zero] at hi
        exact absurd (Option.some.inj hi) hl
      | succ i' =>
        simp only [List.getElem?_cons_succ] at hi
        obtain ⟨n', hn', hle⟩ := ih i' hi
        exact ⟨n' + 1, by simp [jsIndexOf, if_neg hl, hn'], by omega⟩

/-! ## Helper lemmas about the comparison loop -/

/-- Mapping the index over a guarded `filterMap` that builds one record
per passing index recovers the plain filter. -/
theorem filterMap_guard_map_index (p : Nat → Prop) [DecidablePred p]
    (g : Nat → MismatchRecord) (hg : ∀ i, (g i).index = i)
    (l : List Nat) :
    ((l.filterMap fun i => if p i then some (g i) else none).map
        fun m => m.index)
      = l.filter fun i => decide (p i) := by
  induction l with
  | nil => simp
  | cons x xs ih =>
    by_cases hp : p x
    · simp [hp, ih, hg]
    · simp [hp, ih]

/-- Members of a guarded `filterMap` are exactly the records built from
passing indices of the underlying list. -/
theorem mem_filterMap_guard (p : Nat → Prop) [DecidablePred p]
    (g : Nat → MismatchRecord) (l : List Nat) (m : MismatchRecord) :
    m ∈ (l.filterMap fun i => if p i then some (g i) else none) ↔
      ∃ i, i ∈ l ∧ p i ∧ m = g i := by
  rw [List.mem_filterMap]
  constructor
  · rintro ⟨i, hi, hsome⟩
    by_cases hp : p i
    · rw [if_pos hp] at hsome
      exact ⟨i, hi, hp, (Option.some.inj hsome).symm⟩
    · rw [if_neg hp] at hsome
      exact absurd hsome (Option.noConfusion)
  · rintro ⟨i, hi, hp, rfl⟩
    exact ⟨i, hi, by rw [if_pos hp]⟩

/-! ## Helper lemmas about parsing -/

/-- A character list with no decimal digit parses to `NaN` regardless of
sign: both the hexadecimal branch (which needs a leading `0`) and the
decimal branch (which needs a digit prefix) fail. -/
theorem jsParseBody_no_digit (sign : Int) (body : List Char)
    (h : ∀ c ∈ body, c.isDigit = false) :
    jsParseBody sign body = none := by
  match body with
  | [] => rfl
  | [c] =>
    have hc : c.isDigit = false := h c (by simp)
    simp only [jsParseBody, List.takeWhile]
    rw [hc]
    rfl
  | c :: c' :: rest =>
    have hc : c.isDigit = false := h c (by simp)
    have hzero : c ≠ '0' := by
      intro hcontra
      rw [hcontra] at hc
      simp [Char.isDigit] at hc
    unfold jsParseBody
    split
    · rename_i heq
      exact absurd (List.cons.inj heq).1 hzero
    · simp only [List.takeWhile]
      rw [hc]
      rfl

/-- `jsParseIntChars` fails on any character list with no decimal digit
(a sign character is not a digit, so the hypothesis survives the sign
strip). -/
theorem jsParseIntChars_no_digit (cs : List Char)
    (h : ∀ c ∈ cs, c.isDigit = false) :
    jsParseIntChars cs = none := by
  match cs with
  | [] => rfl
  | c :: rest =>
    have hrest : ∀ x ∈ rest, x.isDigit = false :=
      fun x hx => h x (List.mem_cons_of_mem c hx)
    unfold jsParseIntChars
    split
    · rename_i heq
      exact jsParseBody_no_digit _ _
        (fun x hx => h x (by rw [heq]; exact List.mem_cons_of_mem _ hx))
    · rename_i heq
      exact jsParseBody_no_digit _ _
        (fun x hx => h x (by rw [heq]; exact List.mem_cons_of_mem _ hx))
    · exact jsParseBody_no_digit _ _ h

/-- Trimming surrounding whitespace only removes characters. -/
theorem mem_of_mem_trimChars (c : Char) (l : List Char)
    (h : c ∈ trimChars l) : c ∈ l := by
  unfold trimChars at h
  rw [List.mem_reverse] at h
  have h1 : c ∈ (l.dropWhile Char.isWhitespace).reverse :=
    (List.dropWhile_sublist _).mem h
  rw [List.mem_reverse] at h1
  exact (List.dropWhile_sublist _).mem h1

/-! ## Claim theorems -/

/-- C1: for every lock signal and mismatch list, the classification is
exactly the documented matrix — locked with mismatches fails the run,
locked and clean passes, unlocked with mismatches is advisory only
(kept for review, does not fail the run), unlocked and clean passes —
and the run fails exactly when the verdict is Fail. -/
theorem C1_classification_matrix (lock : Bool) (ms : List MismatchRecord) :
    (lock = true → ms ≠ [] →
      classify lock ms = Verdict.Fail ∧ testFails lock ms = true) ∧
    (lock = true → ms = [] →
      classify lock ms = Verdict.Pass ∧ testFails lock ms = false) ∧
    (lock = false → ms ≠ [] →
      classify lock ms = Verdict.Advisory ∧ testFails lock ms = false) ∧
    (lock = false → ms = [] →
      classify lock ms = Verdict.Pass ∧ testFails lock ms = false) ∧
    (classify lock ms = Verdict.Fail ↔ testFails lock ms = true) := by
  cases lock <;> cases ms <;> simp [classify, testFails]

/-- Witness for C1 at a concrete locked run with one mismatch. -/
theorem C1_classification_matrix_witness :
    classify true [{ index := 0, month := "DEC", supply := 1, demand := 2 }]
        = Verdict.Fail ∧
    testFails true [{ index := 0, month := "DEC", supply := 1, demand := 2 }]
        = true :=
  (C1_classification_matrix true
    [{ index := 0, month := "DEC", supply := 1, demand := 2 }]).1
    rfl (by decide)

/-- C2 counterexample: the demand-side cell filter in the current test
code keeps `2026` (the claimed calendar-year exclusion is not applied),
and the cells `230` and `1950` side by side both survive. -/
theorem C2_cell_filter_counterexample :
    extractDemandRowValues [{ text := "2026", inputValue := none }]
        = [2026] ∧
    extractDemandRowValues
        [{ text := "230", inputValue := none },
         { text := "1950", inputValue := none }]
      = [230, 1950] := by decide

/-- C2 amended: the demand-side row extraction keeps a parsed integer
iff it is `≥ 0` (the `[1900,2100]` exclusion was removed from the test
code); `230` is retained, `2026` is retained too, and `230` beside
`1950` yields both values. The architecture note's documented Pass-1
filter, embedded separately, is the one satisfying the claimed
asymmetric predicate and keeps only `230` from that pair. -/
theorem C2_cell_filter_amended :
    (∀ (c : Cell) (n : Int),
        textIncludes c.text "Gross sales" = false →
        jsParseInt (stripCommas (cellValueText c)) = some n →
        (demandCellParse c = some n ↔ 0 ≤ n) ∧
        (¬ 0 ≤ n → demandCellParse c = none)) ∧
    extractDemandRowValues [{ text := "230", inputValue := none }] = [230] ∧
    extractDemandRowValues [{ text := "2026", inputValue := none }] = [2026] ∧
    extractDemandRowValues
        [{ text := "230", inputValue := none },
         { text := "1950", inputValue := none }]
      = [230, 1950] ∧
    extractDocRowValues
        [{ text := "230", inputValue := none },
         { text := "1950", inputValue := none }]
      = [230] ∧
    (∀ n : Int, docKeep n = true ↔
      0 ≤ n ∧ n < 10000000 ∧ (n < 1900 ∨ 2100 < n ∨ n < 1000)) := by
  refine ⟨?_, by decide, by decide, by decide, by decide, ?_⟩
  · intro c n hskip hparse
    have hform : demandCellParse c = if 0 ≤ n then some n else none := by
      unfold demandCellParse
      rw [hskip, hparse]
      simp
    rw [hform]
    by_cases h0 : 0 ≤ n
    · simp [h0]
    · simp [h0]
  · intro n
    simp only [docKeep, Bool.and_eq_true, Bool.or_eq_true, decide_eq_true_eq]
    omega

/-- Witness for C2 amended at the concrete cell text "-7". -/
theorem C2_cell_filter_amended_witness :
    demandCellParse { text := "-7", inputValue := none } = none :=
  ((C2_cell_filter_amended).1 { text := "-7", inputValue := none } (-7)
    (by decide) (by decide)).2 (by decide)

/-- C9: `parseCount` strips grouping commas and whitespace before
parsing, so "1,234" and "1234" both parse to 1234; it signals
`NotANumber` (`none`) on the empty string and on every input with no
numeric content after stripping. -/
theorem C9_parseCount_contract :
    parseCount "1,234" = some 1234 ∧ parseCount "1234" = some 1234 ∧
    parseCount "" = none ∧ parseCount "abc" = none ∧
    ∀ s : String,
      (∀ c ∈ (stripCommas s).toList, c.isDigit = false) →
      parseCount s = none := by
  refine ⟨by decide, by decide, by decide, by decide, ?_⟩
  intro s h
  unfold parseCount jsParseInt
  exact jsParseIntChars_no_digit _
    (fun c hc => h c (mem_of_mem_trimChars c _ hc))

/-- Witness for C9 at the concrete non-numeric input "n/a". -/
theorem C9_parseCount_contract_witness : parseCount "n/a" = none :=
  (C9_parseCount_contract).2.2.2.2 "n/a" (by decide)

/-- C3: when both the last 1 and the last 2 accumulated labels match the
first 1 and first 2 labels of the next row, the overlap scan selects the
largest matching `k` in range — the result is at least 2, itself
matches, and no larger `k` in scan range matches. -/
theorem C3_largest_overlap_selected (al rl : List Label)
    (h1 : overlapMatches al rl 1 = true)
    (h2 : overlapMatches al rl 2 = true)
    (hal : 2 ≤ al.length) (hrl : 2 ≤ rl.length) :
    2 ≤ computeOverlap al rl ∧
    overlapMatches al rl (computeOverlap al rl) = true ∧
    ∀ k, computeOverlap al rl < k → k ≤ overlapBound al rl →
      overlapMatches al rl k = false := by
  have hb : 2 ≤ overlapBound al rl := by
    unfold overlapBound
    omega
  rcases computeOverlap_spec al rl with ⟨_, hnone⟩ | ⟨_, _, hmatch, hmax⟩
  · rw [hnone 2 (by omega) hb] at h2
    exact absurd h2 (Bool.false_ne_true)
  · refine ⟨?_, hmatch, hmax⟩
    by_contra hlt
    push_neg at hlt
    rw [hmax 2 (by omega) hb] at h2
    exact absurd h2 (Bool.false_ne_true)

/-- Witness for C3: a repeating label pattern where k=1 and k=2 both
match; the selected overlap is 2, itself a match, and maximal. -/
theorem C3_largest_overlap_selected_witness :
    2 ≤ computeOverlap ["JAN", "JAN"] ["JAN", "JAN", "FEB"] ∧
    overlapMatches ["JAN", "JAN"] ["JAN", "JAN", "FEB"]
        (computeOverlap ["JAN", "JAN"] ["JAN", "JAN", "FEB"]) = true ∧
    ∀ k, computeOverlap ["JAN", "JAN"] ["JAN", "JAN", "FEB"] < k →
      k ≤ overlapBound ["JAN", "JAN"] ["JAN", "JAN", "FEB"] →
      overlapMatches ["JAN", "JAN"] ["JAN", "JAN", "FEB"] k = false :=
  C3_largest_overlap_selected ["JAN", "JAN"] ["JAN", "JAN", "FEB"]
    (by decide) (by decide) (by decide) (by decide)

/-- C4: for every non-empty row sequence sorted ascending by origin
year (each row with as many labels as values), the stitched value count
plus the removed overlaps equals the total input value count — i.e. the
output length is the input total minus the overlap removed; and at any
boundary where no `k` in scan range matches, the overlap is 0 and the
next row is appended verbatim. -/
theorem C4_stitch_length (rows : List RowExtract) (hne : rows ≠ [])
    (hinv : ∀ r ∈ rows, r.headers.length = r.values.length)
    (hsorted : rows.Pairwise (fun a b => a.year ≤ b.year)) :
    (stitch rows).values.length + (stitchOverlaps rows).sum
        = (rows.map (fun r => r.values.length)).sum ∧
    (stitch rows).values.length
        = (rows.map (fun r => r.values.length)).sum - (stitchOverlaps rows).sum ∧
    ∀ (acc : DemandData) (row : RowExtract),
      (∀ k, 1 ≤ k → k ≤ overlapBound acc.labels row.headers →
          overlapMatches acc.labels row.headers k = false) →
      computeOverlap acc.labels row.headers = 0 ∧
      stitchStep acc row
        = { labels := acc.labels ++ row.headers,
            values := acc.values ++ row.values } := by
  have hthird : ∀ (acc : DemandData) (row : RowExtract),
      (∀ k, 1 ≤ k → k ≤ overlapBound acc.labels row.headers →
          overlapMatches acc.labels row.headers k = false) →
      computeOverlap acc.labels row.headers = 0 ∧
      stitchStep acc row
        = { labels := acc.labels ++ row.headers,
            values := acc.values ++ row.values } := by
    intro acc row hnone
    have h0 : computeOverlap acc.labels row.headers = 0 := by
      rcases computeOverlap_spec acc.labels row.headers with
        ⟨h0, _⟩ | ⟨hge, hle, hmatch, _⟩
      · exact h0
      · rw [hnone _ hge hle] at hmatch
        exact absurd hmatch (Bool.false_ne_true)
    exact ⟨h0, by simp [stitchStep, h0]⟩
  rcases rows with _ | ⟨r, rest⟩
  · exact absurd rfl hne
  · have hfold := foldl_stitchStep_length rest
      { labels := r.headers, values := r.values }
      (hinv r (List.mem_cons_self r rest))
      (fun x hx => hinv x (List.mem_cons_of_mem r hx))
    refine ⟨?_, ?_, hthird⟩
    · simpa [stitch, stitchOverlaps] using hfold.1
    · have h1 : (stitch (r :: rest)).values.length
          + (stitchOverlaps (r :: rest)).sum
          = ((r :: rest).map (fun x => x.values.length)).sum := by
        simpa [stitch, stitchOverlaps] using hfold.1
      omega

/-- Witness for C4 at the documented 1-month-overlap example: two rows
of lengths 2 and 3 with one overlapping boundary month stitch to 4
values. -/
theorem C4_stitch_length_witness :
    (stitch [{ year := 2025, values := [215, 237], headers := ["SEP", "OCT"] },
             { year := 2026, values := [237, 389, 307],
               headers := ["OCT", "NOV", "DEC"] }]).values.length
        + (stitchOverlaps
            [{ year := 2025, values := [215, 237], headers := ["SEP", "OCT"] },
             { year := 2026, values := [237, 389, 307],
               headers := ["OCT", "NOV", "DEC"] }]).sum
      = ([{ year := 2025, values := [215, 237], headers := ["SEP", "OCT"] },
          { year := 2026, values := [237, 389, 307],
            headers := ["OCT", "NOV", "DEC"] }].map
          (fun r : RowExtract => r.values.length)).sum ∧
    (stitch [{ year := 2025, values := [215, 237], headers := ["SEP", "OCT"] },
             { year := 2026, values := [237, 389, 307],
               headers := ["OCT", "NOV", "DEC"] }]).values.length
      = ([{ year := 2025, values := [215, 237], headers := ["SEP", "OCT"] },
          { year := 2026, values := [237, 389, 307],
            headers := ["OCT", "NOV", "DEC"] }].map
          (fun r : RowExtract => r.values.length)).sum
        - (stitchOverlaps
            [{ year := 2025, values := [215, 237], headers := ["SEP", "OCT"] },
             { year := 2026, values := [237, 389, 307],
               headers := ["OCT", "NOV", "DEC"] }]).sum ∧
    ∀ (acc : DemandData) (row : RowExtract),
      (∀ k, 1 ≤ k → k ≤ overlapBound acc.labels row.headers →
          overlapMatches acc.labels row.headers k = false) →
      computeOverlap acc.labels row.headers = 0 ∧
      stitchStep acc row
        = { labels := acc.labels ++ row.headers,
            values := acc.values ++ row.values } :=
  C4_stitch_length
    [{ year := 2025, values := [215, 237], headers := ["SEP", "OCT"] },
     { year := 2026, values := [237, 389, 307], headers := ["OCT", "NOV", "DEC"] }]
    (by decide) (by decide) (by decide)

/-- C8 counterexample: a gross-sales row with seven surviving values in
a table whose discovered header row has only six month labels produces
a row extract whose label count (6) differs from its value count (7) —
the `len(labels) == len(values)` invariant is not guaranteed by the
extraction itself. -/
theorem C8_series_invariant_counterexample :
    ((mkRowExtract 2026 ["JAN", "FEB", "MAR", "APR", "MAY", "JUN"]
        [230, 231, 232, 233, 234, 235, 236]).map
      (fun r => decide (r.headers.length = r.values.length))) = some false := by
  decide

/-- C8 amended: each per-row extract (supply or demand) has exactly
`min(len(values), len(discoveredHeaders))` labels, so the invariant
`len(labels) == len(values)` holds precisely when the discovered header
row offers at least as many month labels as the row has surviving
values (the test asserts this at runtime, demand-supply.spec.ts:410);
stitching preserves the invariant whenever every input row satisfies
it. -/
theorem C8_series_invariant_amended :
    (∀ (y : Int) (hs : List Label) (vs : List Int) (r : RowExtract),
        mkRowExtract y hs vs = some r →
        r.headers.length = min vs.length hs.length ∧
        r.values = vs ∧
        (vs.length ≤ hs.length → r.headers.length = r.values.length)) ∧
    (∀ (hs : List Label) (vs : List Int),
        (mkSupplyData hs vs).headers.length = min vs.length hs.length ∧
        (vs.length ≤ hs.length →
          (mkSupplyData hs vs).headers.length
            = (mkSupplyData hs vs).values.length)) ∧
    ∀ rows : List RowExtract,
      (∀ r ∈ rows, r.headers.length = r.values.length) →
      (stitch rows).labels.length = (stitch rows).values.length := by
  refine ⟨?_, ?_, ?_⟩
  · intro y hs vs r hr
    unfold mkRowExtract at hr
    split at hr
    · injection hr with hr
      subst hr
      refine ⟨by simp, rfl, fun hle => ?_⟩
      simp only [List.length_take]
      omega
    · exact absurd hr (Option.noConfusion)
  · intro hs vs
    refine ⟨by simp [mkSupplyData], fun hle => ?_⟩
    simp only [mkSupplyData, List.length_take]
    omega
  · intro rows hall
    rcases rows with _ | ⟨r, rest⟩
    · rfl
    · exact (foldl_stitchStep_length rest
        { labels := r.headers, values := r.values }
        (hall r (List.mem_cons_self r rest))
        (fun x hx => hall x (List.mem_cons_of_mem r hx))).2

/-- Witness for C8 amended: a concrete stitch of two invariant-holding
rows keeps labels and values the same length. -/
theorem C8_series_invariant_amended_witness :
    (stitch [{ year := 2025, values := [215, 237], headers := ["SEP", "OCT"] },
             { year := 2026, values := [237, 389, 307],
               headers := ["OCT", "NOV", "DEC"] }]).labels.length
      = (stitch [{ year := 2025, values := [215, 237], headers := ["SEP", "OCT"] },
                 { year := 2026, values := [237, 389, 307],
                   headers := ["OCT", "NOV", "DEC"] }]).values.length :=
  (C8_series_invariant_amended).2.2
    [{ year := 2025, values := [215, 237], headers := ["SEP", "OCT"] },
     { year := 2026, values := [237, 389, 307], headers := ["OCT", "NOV", "DEC"] }]
    (by decide)

/-- C5: when the pivot label occurs at two positions `i < j` of the
demand labels, `alignAndCompare` slices from the first (lowest-index)
occurrence: the pivot index found is at most `i`, strictly before `j`,
carries the pivot, has no earlier occurrence, and the comparison is run
on the slice at that index. -/
theorem C5_first_occurrence_pivot (pivot : Label) (demandLabels : List Label)
    (i j : Nat) (hij : i < j) (hjlen : j < demandLabels.length)
    (hi : demandLabels[i]? = some pivot) (hj : demandLabels[j]? = some pivot) :
    ∃ s, jsIndexOf pivot demandLabels = some s ∧
      s ≤ i ∧ s < j ∧ demandLabels[s]? = some pivot ∧
      (∀ m, m < s → demandLabels[m]? ≠ some pivot) ∧
      ∀ (supplyValues demandValues : List Int),
        alignAndCompare pivot supplyValues demandLabels demandValues
          = .ok (compareFrom s supplyValues demandLabels demandValues) := by
  obtain ⟨s, hs, hsi⟩ := jsIndexOf_le_of_mem pivot demandLabels i hi
  obtain ⟨hslen, hsget, hsmin⟩ := jsIndexOf_eq_some pivot demandLabels s hs
  refine ⟨s, hs, hsi, by omega, hsget, hsmin, fun sv dv => ?_⟩
  unfold alignAndCompare
  rw [hs]

/-- Witness for C5 at the spec's duplicated-label example: DEC occurs
at indices 2 and 5; the pivot is the first occurrence. -/
theorem C5_first_occurrence_pivot_witness :
    ∃ s, jsIndexOf "DEC" ["OCT", "NOV", "DEC", "JAN", "FEB", "DEC", "JAN"]
          = some s ∧
      s ≤ 2 ∧ s < 5 ∧
      ["OCT", "NOV", "DEC", "JAN", "FEB", "DEC", "JAN"][s]? = some "DEC" ∧
      (∀ m, m < s →
        ["OCT", "NOV", "DEC", "JAN", "FEB", "DEC", "JAN"][m]? ≠ some "DEC") ∧
      ∀ (supplyValues demandValues : List Int),
        alignAndCompare "DEC" supplyValues
            ["OCT", "NOV", "DEC", "JAN", "FEB", "DEC", "JAN"] demandValues
          = .ok (compareFrom s supplyValues
              ["OCT", "NOV", "DEC", "JAN", "FEB", "DEC", "JAN"] demandValues) :=
  C5_first_occurrence_pivot "DEC" ["OCT", "NOV", "DEC", "JAN", "FEB", "DEC", "JAN"]
    2 5 (by decide) (by decide) (by decide) (by decide)

/-- C6: when the pivot label is absent from the demand labels,
`alignAndCompare` fails with the hard not-found error carrying the
source's message, and never returns a successful comparison. -/
theorem C6_pivot_not_found (pivot : Label) (supplyValues : List Int)
    (demandLabels : List Label) (demandValues : List Int)
    (habs : pivot ∉ demandLabels) :
    alignAndCompare pivot supplyValues demandLabels demandValues
      = .error ("Current month " ++ pivot ++ " not found in demand labels: ["
          ++ String.intercalate ", " demandLabels ++ "]") ∧
    ∀ res, alignAndCompare pivot supplyValues demandLabels demandValues
      ≠ .ok res := by
  have hnone := (jsIndexOf_eq_none_iff pivot demandLabels).mpr habs
  constructor
  · unfold alignAndCompare
    rw [hnone]
  · intro res hcontra
    unfold alignAndCompare at hcontra
    rw [hnone] at hcontra
    exact Except.noConfusion hcontra

/-- Witness for C6 with DEC absent from a two-month demand series. -/
theorem C6_pivot_not_found_witness :
    alignAndCompare "DEC" [1] ["OCT", "NOV"] [3, 4]
      = .error ("Current month " ++ "DEC" ++ " not found in demand labels: ["
          ++ String.intercalate ", " ["OCT", "NOV"] ++ "]") ∧
    ∀ res, alignAndCompare "DEC" [1] ["OCT", "NOV"] [3, 4] ≠ .ok res :=
  C6_pivot_not_found "DEC" [1] ["OCT", "NOV"] [3, 4] (by decide)

/-- C7: on a successful alignment the compared count is
`min(len(supply), len(demandSliced))`, and the mismatch list holds
exactly one record per compared position with unequal values — its
indices are precisely the unequal positions in order, and each record
carries that position's month label, supply value and demand value. -/
theorem C7_compare_positions (pivot : Label) (supplyValues : List Int)
    (demandLabels : List Label) (demandValues : List Int) (s : Nat)
    (hs : jsIndexOf pivot demandLabels = some s) :
    ∃ res, alignAndCompare pivot supplyValues demandLabels demandValues
        = .ok res ∧
      res.comparedCount
        = min supplyValues.length (demandValues.drop s).length ∧
      res.mismatches.map (fun m => m.index)
        = (List.range res.comparedCount).filter
            (fun i => decide
              (supplyValues.getD i 0 ≠ (demandValues.drop s).getD i 0)) ∧
      ∀ m ∈ res.mismatches,
        m.index < res.comparedCount ∧
        supplyValues.getD m.index 0 ≠ (demandValues.drop s).getD m.index 0 ∧
        m.month = monthLabel (demandLabels.drop s) m.index ∧
        m.supply = supplyValues.getD m.index 0 ∧
        m.demand = (demandValues.drop s).getD m.index 0 := by
  refine ⟨compareFrom s supplyValues demandLabels demandValues, ?_, rfl, ?_, ?_⟩
  · unfold alignAndCompare
    rw [hs]
  · exact filterMap_guard_map_index
      (fun i => supplyValues.getD i 0 ≠ (demandValues.drop s).getD i 0)
      (fun i => { index := i, month := monthLabel (demandLabels.drop s) i,
                  supply := supplyValues.getD i 0,
                  demand := (demandValues.drop s).getD i 0 })
      (fun i => rfl) (List.range _)
  · intro m hm
    obtain ⟨i, hirange, hp, rfl⟩ := (mem_filterMap_guard
      (fun i => supplyValues.getD i 0 ≠ (demandValues.drop s).getD i 0)
      (fun i => { index := i, month := monthLabel (demandLabels.drop s) i,
                  supply := supplyValues.getD i 0,
                  demand := (demandValues.drop s).getD i 0 })
      (List.range _) m).mp hm
    exact ⟨List.mem_range.mp hirange, hp, rfl, rfl, rfl⟩

/-- Witness for C7: pivot NOV found at index 1; two positions compared,
one mismatch at index 1. -/
theorem C7_compare_positions_witness :
    ∃ res, alignAndCompare "NOV" [5, 6] ["OCT", "NOV", "DEC"] [2, 5, 9]
        = .ok res ∧
      res.comparedCount = min 2 ([2, 5, 9].drop 1).length ∧
      res.mismatches.map (fun m => m.index)
        = (List.range res.comparedCount).filter
            (fun i => decide
              (([5, 6] : List Int).getD i 0
                ≠ (([2, 5, 9] : List Int).drop 1).getD i 0)) ∧
      ∀ m ∈ res.mismatches,
        m.index < res.comparedCount ∧
        ([5, 6] : List Int).getD m.index 0
          ≠ (([2, 5, 9] : List Int).drop 1).getD m.index 0 ∧
        m.month = monthLabel (["OCT", "NOV", "DEC"].drop 1) m.index ∧
        m.supply = ([5, 6] : List Int).getD m.index 0 ∧
        m.demand = (([2, 5, 9] : List Int).drop 1).getD m.index 0 :=
  C7_compare_positions "NOV" [5, 6] ["OCT", "NOV", "DEC"] [2, 5, 9] 1 (by decide)

/-- C10: boundary overlap removal is decided by label equality alone —
two candidate next rows with the same labels but different values get
the same overlap, yield the same stitched labels, keep the accumulated
values verbatim as a prefix, and lose exactly their first `overlap`
values, even though the discarded values differ between the two rows. -/
theorem C10_overlap_by_labels_only (acc : DemandData) (row rowAlt : RowExtract)
    (hh : row.headers = rowAlt.headers)
    (hdiff : row.values.take (computeOverlap acc.labels row.headers)
        ≠ rowAlt.values.take (computeOverlap acc.labels row.headers)) :
    computeOverlap acc.labels row.headers
        = computeOverlap acc.labels rowAlt.headers ∧
    (stitchStep acc row).labels = (stitchStep acc rowAlt).labels ∧
    (stitchStep acc row).values
        = acc.values ++ row.values.drop (computeOverlap acc.labels row.headers) ∧
    (stitchStep acc rowAlt).values
        = acc.values
          ++ rowAlt.values.drop (computeOverlap acc.labels row.headers) ∧
    (stitchStep acc row).values.take acc.values.length = acc.values ∧
    (stitchStep acc rowAlt).values.take acc.values.length = acc.values := by
  refine ⟨by rw [hh], by simp [stitchStep, hh], rfl, by rw [hh]; rfl, ?_, ?_⟩
  · show (acc.values ++ _).take acc.values.length = acc.values
    exact List.take_left _ _
  · show (acc.values ++ _).take acc.values.length = acc.values
    exact List.take_left _ _

/-- Witness for C10: the accumulated series ends at OCT with value 237;
two candidate rows both start at OCT but with different first values
(237 vs 999); the overlap is label-decided and both first values are
discarded. -/
theorem C10_overlap_by_labels_only_witness :
    computeOverlap ["SEP", "OCT"] ["OCT", "NOV"]
        = computeOverlap ["SEP", "OCT"] ["OCT", "NOV"] ∧
    (stitchStep { labels := ["SEP", "OCT"], values := [215, 237] }
        { year := 2026, values := [237, 389], headers := ["OCT", "NOV"] }).labels
      = (stitchStep { labels := ["SEP", "OCT"], values := [215, 237] }
        { year := 2026, values := [999, 389], headers := ["OCT", "NOV"] }).labels ∧
    (stitchStep { labels := ["SEP", "OCT"], values := [215, 237] }
        { year := 2026, values := [237, 389], headers := ["OCT", "NOV"] }).values
      = [215, 237] ++ [237, 389].drop (computeOverlap ["SEP", "OCT"] ["OCT", "NOV"]) ∧
    (stitchStep { labels := ["SEP", "OCT"], values := [215, 237] }
        { year := 2026, values := [999, 389], headers := ["OCT", "NOV"] }).values
      = [215, 237] ++ [999, 389].drop (computeOverlap ["SEP", "OCT"] ["OCT", "NOV"]) ∧
    (stitchStep { labels := ["SEP", "OCT"], values := [215, 237] }
        { year := 2026, values := [237, 389], headers := ["OCT", "NOV"] }).values.take 2
      = [215, 237] ∧
    (stitchStep { labels := ["SEP", "OCT"], values := [215, 237] }
        { year := 2026, values := [999, 389], headers := ["OCT", "NOV"] }).values.take 2
      = [215, 237] :=
  C10_overlap_by_labels_only
    { labels := ["SEP", "OCT"], values := [215, 237] }
    { year := 2026, values := [237, 389], headers := ["OCT", "NOV"] }
    { year := 2026, values := [999, 389], headers := ["OCT", "NOV"] }
    (by decide) (by decide)

end DemandSupply
